import Mathlib

/-!
Formal development checking the cartolina-tileserver specification against a
shallow embedding of the server's code.  Each section embeds one part of the
source (resource diffing, the TMS metatile path, the normal-map producer, the
VRT overview builder, the resource loader, surface-spheroid preparation and
delivery-index publication) and proves or refutes the corresponding spec
sentences.
-/

/- ------------------------------------------------------------------
Resource model and `Resource::changed` (resource.hpp / resource.cpp).
------------------------------------------------------------------ -/

/-- Outcome of a resource/definition diff (`enum class Changed` in
resource.hpp). -/
inductive Changed where
  | yes
  | no
  | safely
  | withRevisionBump
deriving DecidableEq, Repr

/-- `Resource::Id`: reference frame, group and id strings. -/
structure ResourceId where
  referenceFrame : String
  group : String
  id : String
deriving DecidableEq, Repr

/-- `Resource::Generator::Type`: tagged variant over tms/surface/geodata. -/
inductive GeneratorType where
  | tms
  | surface
  | geodata
deriving DecidableEq, Repr

/-- `Resource::Generator`: generator kind plus free-text driver tag. -/
structure ResourceGenerator where
  type : GeneratorType
  driver : String
deriving DecidableEq, Repr

/-- `vr::LodRange`: closed integer LOD interval. -/
structure LodRange where
  lo : Int
  hi : Int
deriving DecidableEq, Repr

/-- `vr::TileRange`: (x, y) rectangle in reference-frame coordinates. -/
structure TileRange where
  llx : Int
  lly : Int
  urx : Int
  ury : Int
deriving DecidableEq, Repr

/-- Virtual behaviour of a driver definition (`DefinitionBase`): whether it
needs lod/tile ranges, whether its credits are frozen, and its diff
function, dispatched on the concrete definition payload `D`. -/
structure DefinitionOps (D : Type) where
  needsRanges : D → Bool
  frozenCredits : D → Bool
  changed : D → D → Changed

/-- The `Resource` record (resource.hpp): id, generator, comment, revision,
credits, ranges, registry and the driver-specific definition payload. -/
structure Resource (D : Type) where
  id : ResourceId
  generator : ResourceGenerator
  comment : String
  revision : Nat
  credits : List (String × Nat)
  lodRange : LodRange
  tileRange : TileRange
  registry : List (String × String)
  definition : D
deriving DecidableEq, Repr

/-- `Resource::changed(const Resource &o)`: mandatory items first (id,
generator), ranges only when the definition needs them, credits only when
frozen, then the definition diff, then the forced-revision check, then the
safely-changed items (credits, registry). -/
def Resource.changed {D : Type} (ops : DefinitionOps D)
    (self o : Resource D) : Changed :=
  if self.id ≠ o.id then Changed.yes
  else if self.generator ≠ o.generator then Changed.yes
  else if ops.needsRanges self.definition = true ∧ self.lodRange ≠ o.lodRange then
    Changed.yes
  else if ops.needsRanges self.definition = true ∧ self.tileRange ≠ o.tileRange then
    Changed.yes
  else if ops.frozenCredits self.definition = true ∧ self.credits ≠ o.credits then
    Changed.yes
  else if ops.changed self.definition o.definition ≠ Changed.no then
    ops.changed self.definition o.definition
  else if o.revision ≠ self.revision then Changed.safely
  else if self.credits ≠ o.credits then Changed.safely
  else if self.registry ≠ o.registry then Changed.safely
  else Changed.no

/-- Trivial definition payload used for concrete instances: ranges needed,
credits frozen, diff always `no`. -/
def unitOps : DefinitionOps Unit where
  needsRanges := fun _ => true
  frozenCredits := fun _ => true
  changed := fun _ _ => Changed.no

/-- Definition payload behaviour with non-frozen credits. -/
def unfrozenOps : DefinitionOps Unit where
  needsRanges := fun _ => true
  frozenCredits := fun _ => false
  changed := fun _ _ => Changed.no

/-- Concrete resource used in counterexamples and witnesses. -/
def resA : Resource Unit where
  id := ⟨"melown2015", "g", "r"⟩
  generator := ⟨GeneratorType.tms, "tms-raster"⟩
  comment := ""
  revision := 0
  credits := [("cc", 1)]
  lodRange := ⟨1, 5⟩
  tileRange := ⟨0, 0, 3, 3⟩
  registry := []
  definition := ()

/-- `resA` with only the comment changed. -/
def resB : Resource Unit :=
  { resA with comment := "updated comment" }

/-- `resA` with only the revision changed. -/
def resC : Resource Unit :=
  { resA with revision := 1 }

/-- C1 (counterexample): two resources identical except for the comment; the
diff returns `no`, not `safe`, refuting the claim that a comment-only change
is classified `safe`. -/
theorem resource_changed_comment_counterexample :
    (resA.id = resB.id ∧ resA.generator = resB.generator
      ∧ resA.lodRange = resB.lodRange ∧ resA.tileRange = resB.tileRange
      ∧ resA.credits = resB.credits ∧ resA.registry = resB.registry
      ∧ resA.revision = resB.revision
      ∧ unitOps.changed resA.definition resB.definition = Changed.no
      ∧ resA.comment ≠ resB.comment)
    ∧ Resource.changed unitOps resA resB = Changed.no
    ∧ Resource.changed unitOps resA resB ≠ Changed.safely := by
  decide

/-- C1 (amended): `Resource::changed` returns `yes` exactly when id or
generator differ, or ranges differ while needed, or credits differ while
frozen, or the definition diff is `yes`; and it returns `safe` exactly when
none of those hold and either the definition diff is `safe`, or the
definition diff is `no` and the revision, the (non-frozen) credits, or the
registry differ.  A comment-only change yields `no`, not `safe`. -/
theorem resource_changed_characterization {D : Type} (ops : DefinitionOps D)
    (r o : Resource D) :
    (Resource.changed ops r o = Changed.yes ↔
      (r.id ≠ o.id ∨ r.generator ≠ o.generator
        ∨ (ops.needsRanges r.definition = true
            ∧ (r.lodRange ≠ o.lodRange ∨ r.tileRange ≠ o.tileRange))
        ∨ (ops.frozenCredits r.definition = true ∧ r.credits ≠ o.credits)
        ∨ ops.changed r.definition o.definition = Changed.yes))
    ∧ (Resource.changed ops r o = Changed.safely ↔
      (¬ (r.id ≠ o.id ∨ r.generator ≠ o.generator
            ∨ (ops.needsRanges r.definition = true
                ∧ (r.lodRange ≠ o.lodRange ∨ r.tileRange ≠ o.tileRange))
            ∨ (ops.frozenCredits r.definition = true ∧ r.credits ≠ o.credits))
        ∧ (ops.changed r.definition o.definition = Changed.safely
            ∨ (ops.changed r.definition o.definition = Changed.no
                ∧ (r.revision ≠ o.revision ∨ r.credits ≠ o.credits
                    ∨ r.registry ≠ o.registry))))) := by
  unfold Resource.changed
  split_ifs <;> simp_all <;> tauto

/-- C10: a forced revision change alone (all compared items equal, definition
diff `no`, revisions differ) is classified `safe`. -/
theorem resource_changed_forced_revision {D : Type} (ops : DefinitionOps D)
    (r o : Resource D)
    (hid : r.id = o.id) (hgen : r.generator = o.generator)
    (hranges : ops.needsRanges r.definition = true →
      r.lodRange = o.lodRange ∧ r.tileRange = o.tileRange)
    (hcred : r.credits = o.credits)
    (hreg : r.registry = o.registry)
    (hdef : ops.changed r.definition o.definition = Changed.no)
    (hrev : r.revision ≠ o.revision) :
    Resource.changed ops r o = Changed.safely := by
  have hrev' : o.revision ≠ r.revision := fun h => hrev h.symm
  by_cases hnr : ops.needsRanges r.definition = true
  · obtain ⟨h1, h2⟩ := hranges hnr
    unfold Resource.changed
    simp [hid, hgen, hcred, hreg, hdef, h1, h2, hrev']
  · unfold Resource.changed
    simp [hid, hgen, hcred, hreg, hdef, hnr, hrev']

/-- C10 witness: evaluating the forced-revision theorem on a concrete pair of
resources differing only in the revision field. -/
theorem resource_changed_forced_revision_witness :
    Resource.changed unitOps resA resC = Changed.safely :=
  resource_changed_forced_revision unitOps resA resC rfl rfl
    (fun _ => ⟨rfl, rfl⟩) rfl rfl rfl (by decide)

/- ------------------------------------------------------------------
TMS metatile path (generator/tms-raster-base.cpp).
------------------------------------------------------------------ -/

/-- Outcome of the metatile branch of `TmsRasterBase::generateVtsFile_impl`. -/
inductive MetatileOutcome where
  | errNoMetatiles
  | errOutsideRange
  | metatileTask
deriving DecidableEq, Repr

/-- Metatile branch of `generateVtsFile_impl`: `if (hasMetatiles()) { NotFound
"This dataset doesn't provide metatiles." }` then the lod-range check, then
the task closure that runs `generateMetatile`. -/
def metatileRequest (hasMetatiles : Bool) (lodRangeOk : Bool) :
    MetatileOutcome :=
  if hasMetatiles then MetatileOutcome.errNoMetatiles
  else if ¬ lodRangeOk = true then MetatileOutcome.errOutsideRange
  else MetatileOutcome.metatileTask

/-- `TmsRasterBase::boundLayer`: `metaUrl` is advertised only inside
`if (hasMask())` and then `if (hasMetatiles())`. -/
def boundLayerAdvertisesMetaUrl (hasMask hasMetatiles : Bool) : Bool :=
  hasMask && hasMetatiles

/-- `Constants::RasterMetatileBinaryOrder` in tms-raster-base.cpp. -/
def RasterMetatileBinaryOrder : Nat := 8

/-- `Constants::RasterMetatileSize`: `1 << 8` squared. -/
def RasterMetatileSize : Nat × Nat :=
  (1 <<< RasterMetatileBinaryOrder, 1 <<< RasterMetatileBinaryOrder)

/-- `MetaFlags::available` (0x80) from tms-raster-base.cpp. -/
def MetaFlags.available : Nat := 0x80

/-- `MetaFlags::watertight` (0xc0) from tms-raster-base.cpp. -/
def MetaFlags.watertight : Nat := 0xc0

/-- `vts::TileIndex::Flag::mesh` (vts-libs tile-index flag bit). -/
def TileFlag.mesh : Nat := 1

/-- `vts::TileIndex::Flag::watertight` (vts-libs tile-index flag bit). -/
def TileFlag.watertight : Nat := 2

/-- `vts::TileIndex::Flag::navtile` (vts-libs tile-index flag bit). -/
def TileFlag.navtile : Nat := 4

/-- The reduction from quad-tree flags to grayscale stamped by `meta2d`:
start from 0, or-in `available` when the mesh bit is set, additionally or-in
`watertight` when the watertight bit is also set. -/
def meta2dReduction (flags : Nat) : Nat :=
  if flags &&& TileFlag.mesh ≠ 0 then
    if flags &&& TileFlag.watertight ≠ 0 then
      MetaFlags.available ||| MetaFlags.watertight
    else MetaFlags.available
  else 0

/-- C2 (code bug): the metatile gate of `generateVtsFile_impl` is inverted:
a driver whose `hasMetatiles()` is true has its 2D-metatile request rejected
with NotFound "This dataset doesn't provide metatiles", even though the same
predicate makes `boundLayer` advertise the metatile URL; only drivers
reporting no metatiles reach the rasterisation task.  The rasterisation
reduction itself matches the spec (0x80 for mesh, additionally 0x40 for
watertight, metatile raster 256×256). -/
theorem tms_metatile_gate_bug :
    metatileRequest true true = MetatileOutcome.errNoMetatiles
    ∧ metatileRequest true true ≠ MetatileOutcome.metatileTask
    ∧ boundLayerAdvertisesMetaUrl true true = true
    ∧ metatileRequest false true = MetatileOutcome.metatileTask
    ∧ RasterMetatileSize = (256, 256)
    ∧ meta2dReduction (TileFlag.mesh ||| TileFlag.watertight) = 0xc0
    ∧ meta2dReduction TileFlag.mesh = 0x80
    ∧ meta2dReduction TileFlag.watertight = 0
    ∧ meta2dReduction 0 = 0 := by
  decide

/- ------------------------------------------------------------------
TMS normal-map producer (definition/tms-normalmap.cpp and the
tms-normalmap generator, src/unnamed/part_008).
------------------------------------------------------------------ -/

/-- `resource::TmsNormalMap` definition payload fields relevant to normal
computation (zFactor, invertRelief). -/
structure TmsNormalMapDefinition where
  zFactor : Rat
  invertRelief : Bool
deriving DecidableEq, Repr

/-- `parseDefinition` in definition/tms-normalmap.cpp: `Json::getOpt` updates
`zFactor` and `invertRelief` from the JSON value when the members are
present, leaving the prior values otherwise. -/
def TmsNormalMapDefinition.parseDefinition (d : TmsNormalMapDefinition)
    (jsonZFactor : Option Rat) (jsonInvertRelief : Option Bool) :
    TmsNormalMapDefinition :=
  { zFactor := jsonZFactor.getD d.zFactor
  , invertRelief := jsonInvertRelief.getD d.invertRelief }

/-- `geo::normalmap::Algorithm` selector. -/
inductive NormalmapAlgorithm where
  | zevenbergenThorne
  | horn
deriving DecidableEq, Repr

/-- `geo::normalmap::Parameters` as set up by
`TmsNormalMap::generateTileImage`. -/
structure NormalmapParameters where
  algorithm : NormalmapAlgorithm
  viewspaceRf : Bool
  invertRelief : Bool
  zFactor : Rat
deriving DecidableEq, Repr

/-- Parameter block built by `TmsNormalMap::generateTileImage` before calling
`geo::normalmap::demNormals`: the algorithm is Zevenbergen–Thorne,
`invertRelief` is the literal `true` and `zFactor` the literal `0.427`;
the resource definition (in scope as `definition_`) is not consulted. -/
def tmsNormalMapParams (d : TmsNormalMapDefinition) : NormalmapParameters :=
  let _ := d
  { algorithm := NormalmapAlgorithm.zevenbergenThorne
  , viewspaceRf := true
  , invertRelief := true
  , zFactor := (427 : Rat) / 1000 }

/-- C3 (counterexample): a definition parsed with `zFactor = 1` and
`invertRelief = false` still yields normal-computation parameters
`zFactor = 0.427`, `invertRelief = true`: the configured values are not the
ones used. -/
theorem tms_normalmap_params_counterexample :
    ((TmsNormalMapDefinition.parseDefinition ⟨1, true⟩ (some 1)
        (some false)).zFactor = 1)
    ∧ ((TmsNormalMapDefinition.parseDefinition ⟨1, true⟩ (some 1)
        (some false)).invertRelief = false)
    ∧ (tmsNormalMapParams (TmsNormalMapDefinition.parseDefinition ⟨1, true⟩
        (some 1) (some false))).zFactor ≠ 1
    ∧ (tmsNormalMapParams (TmsNormalMapDefinition.parseDefinition ⟨1, true⟩
        (some 1) (some false))).invertRelief ≠ false := by
  refine ⟨rfl, rfl, ?_, by decide⟩
  intro h
  simp [tmsNormalMapParams] at h
  norm_num at h

/-- C3 (amended): the normal map is computed with the Zevenbergen–Thorne
algorithm, but with hard-coded `zFactor = 0.427` and `invertRelief = true`,
for every resource definition; the definition's parsed `zFactor` and
`invertRelief` fields do not reach the normal computation. -/
theorem tms_normalmap_params_hardcoded (d : TmsNormalMapDefinition) :
    (tmsNormalMapParams d).algorithm = NormalmapAlgorithm.zevenbergenThorne
    ∧ (tmsNormalMapParams d).invertRelief = true
    ∧ (tmsNormalMapParams d).zFactor = (427 : Rat) / 1000 :=
  ⟨rfl, rfl, rfl⟩

/- ------------------------------------------------------------------
VRT overview builder (vrtwo, src/unnamed/part_000).
------------------------------------------------------------------ -/

/-- `math::Size2` as used by the overview builder (dataset sizes are
non-negative). -/
structure Size2 where
  width : Nat
  height : Nat
deriving DecidableEq, Repr

/-- `math::Extents2` restricted to the data the builder manipulates; real
arithmetic modelled over the rationals. -/
structure Extents2 where
  llx : Rat
  lly : Rat
  urx : Rat
  ury : Rat
deriving DecidableEq, Repr

/-- `int(std::round(w / 2.0))` for a non-negative integer dimension. -/
def halveDim (w : Nat) : Nat := (w + 1) / 2

/-- The `halve` lambda of `makeSetup`: both dimensions halved with
round-to-nearest. -/
def halve (s : Size2) : Size2 := ⟨halveDim s.width, halveDim s.height⟩

/-- The overview-size loop of `makeSetup` (fuel-indexed; the C++ loop
terminates whenever `minOvrSize` is positive): while either dimension is
still at least the corresponding `minOvrSize` dimension, push the size;
stop right after pushing a size that hits a `minOvrSize` dimension exactly;
otherwise halve and continue. -/
def ovrLoop (minOvr : Size2) : Nat → Size2 → List Size2
  | 0, _ => []
  | fuel + 1, size =>
    if minOvr.width ≤ size.width ∨ minOvr.height ≤ size.height then
      if size.width = minOvr.width ∨ size.height = minOvr.height then [size]
      else size :: ovrLoop minOvr fuel (halve size)
    else []

/-- `setup.ovrSizes` as computed by `makeSetup`: the loop is entered after a
first halving of the source size. -/
def ovrSizes (dsSize minOvr : Size2) : List Size2 :=
  ovrLoop minOvr (dsSize.width + dsSize.height + 1) (halve dsSize)

/-- Per-level tiling (`makeTiled` in `makeSetup`): `ceil(size / tileSize)`
in each dimension. -/
def makeTiled (tileSize : Size2) (sizes : List Size2) : List Size2 :=
  sizes.map fun s =>
    ⟨(s.width + tileSize.width - 1) / tileSize.width
    , (s.height + tileSize.height - 1) / tileSize.height⟩

/-- The wrap-x widening loop of `makeSetup`, written on the reversed
overview list exactly as the C++ iterates `boost::adaptors::reverse`:
`int add(6); for (auto &s : reverse(ovrSizes)) { s.width += add; add *= 2; }`.
Returns the widened (still reversed) list together with the final `add`. -/
def widenLoop : Nat → List Size2 → List Size2 × Nat
  | add, [] => ([], add)
  | add, s :: rest =>
    let r := widenLoop (2 * add) rest
    (⟨s.width + add, s.height⟩ :: r.1, r.2)

/-- Configuration of the overview builder (`vrtwo::Config` fields consumed
by `makeSetup`, `emptyTile` and `createOverview`). -/
structure VrtwoConfig where
  minOvrSize : Size2
  tileSize : Size2
  wrapx : Option Nat
  background : Option (List Int)
deriving DecidableEq, Repr

/-- The `Setup` record filled by `makeSetup`. -/
structure Setup where
  size : Size2
  extents : Extents2
  ovrSizes : List Size2
  ovrTiled : List Size2
  xPlus : Nat
deriving DecidableEq, Repr

/-- `makeSetup` (src/unnamed/part_000): compute the overview sizes by
repeated halving; without wrap-x, tile and return.  With wrap-x, widen each
level in x starting with 6 pixels at the bottom and doubling on the way up,
set `xPlus` to half the final increment, widen the extents by `xPlus` source
pixel widths on each side (pixel width computed from the original size and
extents), widen the base size, then tile. -/
def makeSetup (dsSize : Size2) (dsExtents : Extents2) (config : VrtwoConfig) :
    Setup :=
  let sizes := ovrSizes dsSize config.minOvrSize
  match config.wrapx with
  | none =>
    { size := dsSize, extents := dsExtents, ovrSizes := sizes
    , ovrTiled := makeTiled config.tileSize sizes, xPlus := 0 }
  | some _ =>
    let r := widenLoop 6 sizes.reverse
    let wsizes := r.1.reverse
    let add := r.2
    let xPlus := add / 2
    let pw := (dsExtents.urx - dsExtents.llx) / (dsSize.width : Rat)
    let eadd := (xPlus : Rat) * pw
    { size := ⟨dsSize.width + add, dsSize.height⟩
    , extents := { dsExtents with llx := dsExtents.llx - eadd
                                , urx := dsExtents.urx + eadd }
    , ovrSizes := wsizes
    , ovrTiled := makeTiled config.tileSize wsizes
    , xPlus := xPlus }

/-- A pixel rectangle (`Rect` in part_000): origin and size. -/
structure PixelRect where
  originX : Int
  originY : Int
  width : Nat
  height : Nat
deriving DecidableEq, Repr

/-- One `VrtDs::addSimpleSource` call recorded by the embedding: target
band, optional source rectangle (whole dataset when absent) and optional
destination rectangle (defaults to the source rectangle when absent). -/
structure SimpleSourceCall where
  band : Nat
  srcRect : Option PixelRect
  dstRect : Option PixelRect
deriving DecidableEq, Repr

/-- The per-band simple sources added by `buildDatasetBase`: with wrap-x the
centre copy, the strip of width `xPlus` taken `shift` pixels left of the
right edge duplicated into the left halo, and the strip `shift` pixels right
of the left edge duplicated into the right halo; without wrap-x a single
whole-dataset source. -/
def buildDatasetBaseSources (inSize : Size2) (xPlus : Nat)
    (wrapx : Option Nat) (bandCount : Nat) : List SimpleSourceCall :=
  (List.range bandCount).flatMap fun i =>
    match wrapx with
    | some shift =>
      [ ⟨i, none, some ⟨(xPlus : Int), 0, inSize.width, inSize.height⟩⟩
      , ⟨i, some ⟨(inSize.width : Int) - xPlus - shift, 0, xPlus
            , inSize.height⟩
        , some ⟨0, 0, xPlus, inSize.height⟩⟩
      , ⟨i, some ⟨(shift : Int), 0, xPlus, inSize.height⟩
        , some ⟨(inSize.width : Int) + xPlus, 0, xPlus, inSize.height⟩⟩ ]
    | none => [⟨i, none, none⟩]

theorem halveDim_le (w : Nat) : halveDim w ≤ w := by
  unfold halveDim; omega

theorem halve_sum_le (s : Size2) :
    (halve s).width + (halve s).height ≤ s.width + s.height := by
  show halveDim s.width + halveDim s.height ≤ s.width + s.height
  unfold halveDim; omega

theorem halve_sum_lt (s : Size2) (h : 2 ≤ s.width ∨ 2 ≤ s.height) :
    (halve s).width + (halve s).height < s.width + s.height := by
  show halveDim s.width + halveDim s.height < s.width + s.height
  unfold halveDim; omega

theorem ovrLoop_head (m : Size2) (fuel : Nat) (s : Size2)
    (h : ovrLoop m fuel s ≠ []) : (ovrLoop m fuel s)[0]? = some s := by
  cases fuel with
  | zero => simp [ovrLoop] at h
  | succ f =>
    unfold ovrLoop
    split_ifs with hc hhit
    · simp
    · simp
    · unfold ovrLoop at h
      simp [hc] at h

theorem ovrLoop_mem (m : Size2) :
    ∀ (fuel : Nat) (s x : Size2), x ∈ ovrLoop m fuel s →
      m.width ≤ x.width ∨ m.height ≤ x.height := by
  intro fuel
  induction fuel with
  | zero => intro s x hx; simp [ovrLoop] at hx
  | succ f ih =>
    intro s x hx
    unfold ovrLoop at hx
    split_ifs at hx with hc hhit
    · simp at hx; exact hx ▸ hc
    · rcases List.mem_cons.1 hx with h | h
      · exact h ▸ hc
      · exact ih (halve s) x h
    · simp at hx

theorem ovrLoop_consec (m : Size2) :
    ∀ (fuel : Nat) (s : Size2) (i : Nat),
      i + 1 < (ovrLoop m fuel s).length →
      (ovrLoop m fuel s)[i + 1]? = ((ovrLoop m fuel s)[i]?).map halve := by
  intro fuel
  induction fuel with
  | zero => intro s i h; simp [ovrLoop] at h
  | succ f ih =>
    intro s i h
    unfold ovrLoop at h ⊢
    split_ifs at h ⊢ with hc hhit
    · simp at h
    · cases i with
      | zero =>
        simp only [List.getElem?_cons_succ, List.getElem?_cons_zero
          , Option.map_some]
        have hne : ovrLoop m f (halve s) ≠ [] := by
          intro hnil
          simp [List.length_cons, hnil] at h
        exact ovrLoop_head m f (halve s) hne
      | succ j =>
        simp only [List.getElem?_cons_succ]
        exact ih (halve s) j (by simpa using h)
    · simp at h

theorem ovrLoop_no_early_hit (m : Size2) :
    ∀ (fuel : Nat) (s : Size2) (i : Nat) (x : Size2),
      i + 1 < (ovrLoop m fuel s).length →
      (ovrLoop m fuel s)[i]? = some x →
      x.width ≠ m.width ∧ x.height ≠ m.height := by
  intro fuel
  induction fuel with
  | zero => intro s i x h _; simp [ovrLoop] at h
  | succ f ih =>
    intro s i x h hx
    unfold ovrLoop at h hx
    split_ifs at h hx with hc hhit
    · simp at h
    · cases i with
      | zero =>
        simp only [List.getElem?_cons_zero, Option.some
          , Option.some.injEq] at hx
        push_neg at hhit
        exact hx ▸ hhit
      | succ j =>
        simp only [List.getElem?_cons_succ] at hx
        exact ih (halve s) j x (by simpa using h) hx
    · simp at h

theorem ovrLoop_empty_iff (m : Size2) (fuel : Nat) (s : Size2)
    (hf : 0 < fuel) :
    ovrLoop m fuel s = [] ↔ (s.width < m.width ∧ s.height < m.height) := by
  cases fuel with
  | zero => omega
  | succ f =>
    unfold ovrLoop
    split_ifs with hc hhit
    · simp; omega
    · simp; omega
    · simp; omega

theorem ovrLoop_last (m : Size2) (hw : 1 ≤ m.width) (hh : 1 ≤ m.height) :
    ∀ (fuel : Nat) (s : Size2), s.width + s.height < fuel →
      ∀ t, (ovrLoop m fuel s).getLast? = some t →
        (t.width = m.width ∨ t.height = m.height)
          ∨ ((halve t).width < m.width ∧ (halve t).height < m.height) := by
  intro fuel
  induction fuel with
  | zero => intro s hs t ht; simp [ovrLoop] at ht
  | succ f ih =>
    intro s hs t ht
    unfold ovrLoop at ht
    split_ifs at ht with hc hhit
    · simp at ht
      exact Or.inl (ht ▸ hhit)
    · push_neg at hhit
      have hbig : 2 ≤ s.width ∨ 2 ≤ s.height := by
        rcases hc with h | h
        · left; have := hhit.1; omega
        · right; have := hhit.2; omega
      have hsum := halve_sum_lt s hbig
      have hfpos : 0 < f := by omega
      cases hrest : ovrLoop m f (halve s) with
      | nil =>
        rw [hrest] at ht
        simp at ht
        right
        have := (ovrLoop_empty_iff m f (halve s) hfpos).1 hrest
        exact ht ▸ this
      | cons a l =>
        rw [hrest] at ht
        rw [List.getLast?_cons_cons] at ht
        exact ih (halve s) (by omega) t (hrest ▸ ht)
    · simp at ht

/-- C4: for any source size and positive `minOvrSize`, the overview sizes of
`makeSetup` start at the first halving of the source size, satisfy
`size[i+1] = round(size[i]/2)` (per dimension, round-to-nearest), keep at
least one dimension at or above `minOvrSize`, never hit a `minOvrSize`
dimension exactly before the last level, are empty exactly when the first
halving is already below `minOvrSize` in both dimensions, and the last level
either hits a `minOvrSize` dimension exactly or its halving drops below
`minOvrSize` in both dimensions. -/
theorem vrtwo_overview_sizes_spec (dsSize minOvr : Size2)
    (hw : 1 ≤ minOvr.width) (hh : 1 ≤ minOvr.height) :
    ((ovrSizes dsSize minOvr) ≠ [] →
      (ovrSizes dsSize minOvr)[0]? = some (halve dsSize))
    ∧ (∀ i, i + 1 < (ovrSizes dsSize minOvr).length →
        (ovrSizes dsSize minOvr)[i + 1]?
          = ((ovrSizes dsSize minOvr)[i]?).map halve)
    ∧ (∀ x ∈ ovrSizes dsSize minOvr,
        minOvr.width ≤ x.width ∨ minOvr.height ≤ x.height)
    ∧ (∀ i x, i + 1 < (ovrSizes dsSize minOvr).length →
        (ovrSizes dsSize minOvr)[i]? = some x →
        x.width ≠ minOvr.width ∧ x.height ≠ minOvr.height)
    ∧ (ovrSizes dsSize minOvr = [] ↔
        (halve dsSize).width < minOvr.width
          ∧ (halve dsSize).height < minOvr.height)
    ∧ (∀ t, (ovrSizes dsSize minOvr).getLast? = some t →
        (t.width = minOvr.width ∨ t.height = minOvr.height)
          ∨ ((halve t).width < minOvr.width
              ∧ (halve t).height < minOvr.height)) := by
  have hfuel : (halve dsSize).width + (halve dsSize).height
      < dsSize.width + dsSize.height + 1 := by
    have := halve_sum_le dsSize; omega
  refine ⟨?_, ?_, ?_, ?_, ?_, ?_⟩
  · intro hne; exact ovrLoop_head _ _ _ hne
  · intro i h; exact ovrLoop_consec _ _ _ i h
  · intro x hx; exact ovrLoop_mem _ _ _ x hx
  · intro i x h hx; exact ovrLoop_no_early_hit _ _ _ i x h hx
  · exact ovrLoop_empty_iff _ _ _ (by omega)
  · intro t ht; exact ovrLoop_last _ hw hh _ _ hfuel t ht

/-- C4 witness: the overview-size properties evaluated on a concrete
100×60 dataset with a 16×16 `minOvrSize`. -/
theorem vrtwo_overview_sizes_spec_witness :
    (1 ≤ (16 : Nat))
    ∧ (ovrSizes ⟨100, 60⟩ ⟨16, 16⟩)[1]?
        = ((ovrSizes ⟨100, 60⟩ ⟨16, 16⟩)[0]?).map halve := by
  refine ⟨by decide, ?_⟩
  exact (vrtwo_overview_sizes_spec ⟨100, 60⟩ ⟨16, 16⟩ (by decide)
    (by decide)).2.1 0 (by decide)

theorem widenLoop_length : ∀ (l : List Size2) (add : Nat),
    (widenLoop add l).1.length = l.length := by
  intro l
  induction l with
  | nil => intro add; rfl
  | cons s rest ih =>
    intro add
    simp [widenLoop, ih]

theorem widenLoop_add : ∀ (l : List Size2) (add : Nat),
    (widenLoop add l).2 = add * 2 ^ l.length := by
  intro l
  induction l with
  | nil => intro add; simp [widenLoop]
  | cons s rest ih =>
    intro add
    simp [widenLoop, ih]
    ring

theorem widenLoop_get : ∀ (l : List Size2) (add i : Nat),
    ((widenLoop add l).1)[i]?
      = (l[i]?).map (fun s => ⟨s.width + add * 2 ^ i, s.height⟩) := by
  intro l
  induction l with
  | nil => intro add i; simp [widenLoop]
  | cons s rest ih =>
    intro add i
    cases i with
    | zero =>
      show ((⟨s.width + add, s.height⟩ : Size2)
          :: (widenLoop (2 * add) rest).1)[0]? = _
      simp
    | succ j =>
      simp only [widenLoop, List.getElem?_cons_succ]
      rw [ih (2 * add) j]
      cases rest[j]? with
      | none => rfl
      | some v =>
        show some (⟨v.width + 2 * add * 2 ^ j, v.height⟩ : Size2)
            = some ⟨v.width + add * 2 ^ (j + 1), v.height⟩
        have h2 : 2 * add * 2 ^ j = add * 2 ^ (j + 1) := by ring
        rw [h2]

/-- C5: with wrap-x configured with overlap `k`, `makeSetup` widens overview
level `i` (of `N` levels) by `6·2^(N-1-i)` pixels in x (3 per side), sets
`xPlus = 3·2^N`, widens the base dataset by `6·2^N` pixels in x and its
extents by `3·2^N` source-pixel widths on each side, and `buildDatasetBase`
duplicates the `xPlus`-wide source strip lying `k` pixels inside the right
edge into the left halo and the strip `k` pixels inside the left edge into
the right halo for every band. -/
theorem vrtwo_wrapx_spec (dsSize : Size2) (dsExtents : Extents2)
    (config : VrtwoConfig) (k : Nat) (hwrap : config.wrapx = some k) :
    (∀ i, i < (ovrSizes dsSize config.minOvrSize).length →
      (makeSetup dsSize dsExtents config).ovrSizes[i]?
        = ((ovrSizes dsSize config.minOvrSize)[i]?).map
            (fun s => ⟨s.width
              + 6 * 2 ^ ((ovrSizes dsSize config.minOvrSize).length - 1 - i)
              , s.height⟩))
    ∧ (makeSetup dsSize dsExtents config).xPlus
        = 3 * 2 ^ (ovrSizes dsSize config.minOvrSize).length
    ∧ (makeSetup dsSize dsExtents config).size.width
        = dsSize.width + 6 * 2 ^ (ovrSizes dsSize config.minOvrSize).length
    ∧ (makeSetup dsSize dsExtents config).size.height = dsSize.height
    ∧ (makeSetup dsSize dsExtents config).extents.llx
        = dsExtents.llx
          - (3 * 2 ^ (ovrSizes dsSize config.minOvrSize).length : Rat)
            * ((dsExtents.urx - dsExtents.llx) / (dsSize.width : Rat))
    ∧ (makeSetup dsSize dsExtents config).extents.urx
        = dsExtents.urx
          + (3 * 2 ^ (ovrSizes dsSize config.minOvrSize).length : Rat)
            * ((dsExtents.urx - dsExtents.llx) / (dsSize.width : Rat))
    ∧ (∀ bands i, i < bands →
        SimpleSourceCall.mk i none
            (some ⟨((makeSetup dsSize dsExtents config).xPlus : Int), 0
              , dsSize.width, dsSize.height⟩)
          ∈ buildDatasetBaseSources dsSize
              (makeSetup dsSize dsExtents config).xPlus (some k) bands
        ∧ SimpleSourceCall.mk i
            (some ⟨(dsSize.width : Int)
              - (makeSetup dsSize dsExtents config).xPlus - k, 0
              , (makeSetup dsSize dsExtents config).xPlus, dsSize.height⟩)
            (some ⟨0, 0, (makeSetup dsSize dsExtents config).xPlus
              , dsSize.height⟩)
          ∈ buildDatasetBaseSources dsSize
              (makeSetup dsSize dsExtents config).xPlus (some k) bands
        ∧ SimpleSourceCall.mk i
            (some ⟨(k : Int), 0
              , (makeSetup dsSize dsExtents config).xPlus, dsSize.height⟩)
            (some ⟨(dsSize.width : Int)
              + (makeSetup dsSize dsExtents config).xPlus, 0
              , (makeSetup dsSize dsExtents config).xPlus, dsSize.height⟩)
          ∈ buildDatasetBaseSources dsSize
              (makeSetup dsSize dsExtents config).xPlus (some k) bands) := by
  set base := ovrSizes dsSize config.minOvrSize with hbase
  set N := base.length with hN
  have hrevlen : base.reverse.length = N := by simp [hN]
  have hwliftlen : (widenLoop 6 base.reverse).1.length = N := by
    rw [widenLoop_length]; exact hrevlen
  have hadd : (widenLoop 6 base.reverse).2 = 6 * 2 ^ N := by
    rw [widenLoop_add, hrevlen]
  have hxp : (makeSetup dsSize dsExtents config).xPlus = 3 * 2 ^ N := by
    simp only [makeSetup, hwrap, hadd]
    have h6 : (6 : Nat) * 2 ^ N = 2 * (3 * 2 ^ N) := by ring
    rw [h6, Nat.mul_div_cancel_left _ (by norm_num)]
  refine ⟨?_, hxp, ?_, ?_, ?_, ?_, ?_⟩
  · intro i hi
    simp only [makeSetup, hwrap]
    have hiw : i < (widenLoop 6 base.reverse).1.length := by omega
    rw [List.getElem?_reverse hiw, widenLoop_get, hwliftlen]
    have hlt : N - 1 - i < base.length := by omega
    rw [List.getElem?_reverse hlt]
    have heq : base.length - 1 - (N - 1 - i) = i := by omega
    rw [heq]
  · simp only [makeSetup, hwrap, hadd]
  · simp only [makeSetup, hwrap]
  · simp only [makeSetup, hwrap, hadd]
    have h6 : (6 : Nat) * 2 ^ N = 2 * (3 * 2 ^ N) := by ring
    rw [h6, Nat.mul_div_cancel_left _ (by norm_num)]
    push_cast
    ring
  · simp only [makeSetup, hwrap, hadd]
    have h6 : (6 : Nat) * 2 ^ N = 2 * (3 * 2 ^ N) := by ring
    rw [h6, Nat.mul_div_cancel_left _ (by norm_num)]
    push_cast
    ring
  · intro bands i hi
    refine ⟨?_, ?_, ?_⟩ <;>
      · simp only [buildDatasetBaseSources, List.mem_flatMap]
        exact ⟨i, List.mem_range.2 hi, by simp⟩

/-- Concrete wrap-x configuration for witnesses. -/
def cfgWrap : VrtwoConfig := ⟨⟨16, 16⟩, ⟨256, 256⟩, some 0, none⟩

/-- C5 witness: the wrap-x setup evaluated on a concrete 64×64 dataset with
a 16×16 `minOvrSize` (two overview levels, hence `xPlus = 3·2^2 = 12`). -/
theorem vrtwo_wrapx_spec_witness :
    cfgWrap.wrapx = some 0
    ∧ (makeSetup ⟨64, 64⟩ ⟨0, 0, 64, 64⟩ cfgWrap).xPlus = 12 := by
  refine ⟨rfl, ?_⟩
  have h := (vrtwo_wrapx_spec ⟨64, 64⟩ ⟨0, 0, 64, 64⟩ cfgWrap 0 rfl).2.1
  rw [h]
  decide

/-- `cv::Scalar`-style resize of the configured background colour to the
band count (`background.resize(bands)`): truncate or zero-pad. -/
def listResize (l : List Int) (n : Nat) : List Int :=
  l.take n ++ List.replicate (n - l.length) 0

/-- `compareValue`: a block equals a single value everywhere. -/
def compareValue (block : List Int) (value : Int) : Bool :=
  block.all fun p => p == value

/-- The warped temporary dataset inspected by `emptyTile`: band count,
per-block per-band pixel data, and the optimized mask fetched by
`fetchMask(true)` (`none` models `!mask.data`, i.e. full-valid). -/
structure TmpDataset where
  bandCount : Nat
  blocks : List (List (List Int))
  mask : Option (List Nat)
deriving DecidableEq, Repr

/-- `emptyTile` (src/unnamed/part_000): with a configured background, resize
it to the band count and compare every block of every band value-for-value;
without one, the tile is empty when the fetched mask exists and has no
non-zero pixel (no mask data means full-valid, hence not empty). -/
def emptyTile (config : VrtwoConfig) (ds : TmpDataset) : Bool :=
  match config.background with
  | some bg0 =>
    ds.blocks.all fun blk =>
      (List.range ds.bandCount).all fun i =>
        compareValue (blk.getD i []) ((listResize bg0 ds.bandCount).getD i 0)
  | none =>
    match ds.mask with
    | none => false
    | some mask => mask.countP (fun p => decide (p ≠ 0)) == 0

/-- File/VRT actions taken by the per-tile body of `createOverview`. -/
inductive TileEvent where
  | writeGeoTiff (tileName : String)
  | addSimpleSource (band : Nat) (tileName : String)
deriving DecidableEq, Repr

/-- Per-tile body of `createOverview` after warping: an empty tile is skipped
(`continue`); a non-empty tile is written as a GeoTIFF and a `SimpleSource`
entry referencing it is added for every band of the overview VRT. -/
def processTile (config : VrtwoConfig) (warped : TmpDataset)
    (tileName : String) (bands : Nat) : List TileEvent :=
  if emptyTile config warped then []
  else
    TileEvent.writeGeoTiff tileName
      :: (List.range bands).map (fun b => TileEvent.addSimpleSource b tileName)

/-- C7: with a configured background a warped tile is empty exactly when
every block of every band equals the (band-count-resized) background colour;
without one it is empty exactly when the fetched mask exists and contains
zero non-zero pixels; and an empty tile is not materialised: no GeoTIFF is
written and no SimpleSource entry referencing it is added, while a non-empty
tile gets both. -/
theorem vrtwo_empty_tile_spec (config : VrtwoConfig) (ds : TmpDataset)
    (tileName : String) (bands : Nat) :
    (∀ bg, config.background = some bg →
      (emptyTile config ds = true ↔
        ∀ blk ∈ ds.blocks, ∀ i < ds.bandCount,
          ∀ p ∈ blk.getD i [], p = (listResize bg ds.bandCount).getD i 0))
    ∧ (config.background = none →
      (emptyTile config ds = true ↔
        ∃ m, ds.mask = some m ∧ ∀ p ∈ m, p = 0))
    ∧ (emptyTile config ds = true →
        processTile config ds tileName bands = [])
    ∧ (emptyTile config ds = false →
        TileEvent.writeGeoTiff tileName ∈ processTile config ds tileName bands
        ∧ ∀ b < bands,
            TileEvent.addSimpleSource b tileName
              ∈ processTile config ds tileName bands) := by
  refine ⟨?_, ?_, ?_, ?_⟩
  · intro bg hbg
    simp only [emptyTile, hbg, compareValue, List.all_eq_true, List.mem_range
      , beq_iff_eq]
  · intro hbg
    simp only [emptyTile, hbg]
    cases hm : ds.mask with
    | none => simp
    | some m =>
      simp only [beq_iff_eq, List.countP_eq_zero, decide_not, Option.some.injEq]
      constructor
      · intro h
        exact ⟨m, rfl, fun p hp => by simpa using h p hp⟩
      · rintro ⟨m2, hm2, h⟩
        cases hm2
        intro p hp
        simpa using h p hp
  · intro h
    simp [processTile, h]
  · intro h
    simp only [processTile, h, Bool.false_eq_true, if_false]
    refine ⟨List.mem_cons_self _ _, ?_⟩
    intro b hb
    exact List.mem_cons_of_mem _ (List.mem_map.2 ⟨b, List.mem_range.2 hb, rfl⟩)

/-- Concrete background configuration for the C7 witness. -/
def cfgBg : VrtwoConfig := ⟨⟨16, 16⟩, ⟨256, 256⟩, none, some [5]⟩

/-- Concrete warped tile matching the background everywhere (band 1 is
compared against the zero-padded background). -/
def dsBg : TmpDataset := ⟨2, [[[5, 5], [0, 0]]], none⟩

/-- C7 witness: the empty-tile characterisation evaluated on a concrete
background-coloured tile: it is classified empty and not materialised. -/
theorem vrtwo_empty_tile_spec_witness :
    emptyTile cfgBg dsBg = true
    ∧ processTile cfgBg dsBg "0-0.tif" 2 = [] := by
  have h := vrtwo_empty_tile_spec cfgBg dsBg "0-0.tif" 2
  have he : emptyTile cfgBg dsBg = true := by decide
  exact ⟨he, h.2.2.1 he⟩

/- ------------------------------------------------------------------
Resource loader ranges check (`detail::parseDefinition` in the resource
loader, src/unnamed/part_000).
------------------------------------------------------------------ -/

/-- Outcome of the ranges check in the loader's `parseDefinition`:
`hardError` models the thrown `Error` ("missing mandatory lod/tile
ranges"), `okWarned` the `warn2` log ("doesn't need lod/tile ranges;
ignored") after which loading continues, `ok` silent success. -/
inductive RangesCheck where
  | hardError
  | okWarned
  | ok
deriving DecidableEq, Repr

/-- The ranges check of `detail::parseDefinition`: throw only when the
definition needs ranges and the `referenceFrames` entry has none; when it
does not need ranges but ranges are present, merely log a warning and
ignore them. -/
def parseDefinitionRangesCheck (needsRanges hasRanges : Bool) : RangesCheck :=
  if needsRanges then
    if !hasRanges then RangesCheck.hardError else RangesCheck.ok
  else if hasRanges then RangesCheck.okWarned
  else RangesCheck.ok

/-- C6 (counterexample): a definition that does not need ranges paired with
the object (with-ranges) form of `referenceFrames` loads successfully with a
warning, refuting the claim that this mismatch direction is a hard error. -/
theorem parse_ranges_mismatch_counterexample :
    parseDefinitionRangesCheck false true = RangesCheck.okWarned
    ∧ parseDefinitionRangesCheck false true ≠ RangesCheck.hardError := by
  decide

/-- C6 (amended): the loader fails hard exactly when the definition needs
ranges and the `referenceFrames` entry is the array (no-ranges) form; the
opposite mismatch (ranges present but not needed) only logs a warning and
the ranges are ignored. -/
theorem parse_ranges_check_characterization :
    ∀ (needsRanges hasRanges : Bool),
      (parseDefinitionRangesCheck needsRanges hasRanges = RangesCheck.hardError
        ↔ (needsRanges = true ∧ hasRanges = false))
      ∧ (parseDefinitionRangesCheck needsRanges hasRanges = RangesCheck.okWarned
        ↔ (needsRanges = false ∧ hasRanges = true)) := by
  decide

/- ------------------------------------------------------------------
Surface-spheroid preparation (generator/surface-spheroid.cpp).
------------------------------------------------------------------ -/

/-- A lod range iterated by `for (auto lod : r.lodRange)` (inclusive). -/
structure SLodRange where
  lodMin : Nat
  lodMax : Nat
deriving DecidableEq, Repr

/-- One result of `metatileBlocks` at a lod: whether
`block.commonAncestor.productive()` holds, and the block view to be set. -/
structure MBlock where
  productive : Bool
  view : List (Nat × Nat)
deriving DecidableEq, Repr

/-- One `ti.set(lod, block.view, flags)` call. -/
structure TiSetCall where
  lod : Nat
  view : List (Nat × Nat)
  flags : Nat
deriving DecidableEq, Repr

/-- Flags computed by `SurfaceSpheroid::prepare_impl` for a productive
block: `mesh | watertight`, plus `navtile` when
`(lod == r.lodRange.min) || (lod <= 10)`. -/
def spheroidFlags (lodMin lod : Nat) : Nat :=
  if lod == lodMin || lod ≤ 10 then
    TileFlag.mesh ||| TileFlag.watertight ||| TileFlag.navtile
  else TileFlag.mesh ||| TileFlag.watertight

/-- The lods enumerated by the preparation loop. -/
def lodsOf (r : SLodRange) : List Nat :=
  List.range' r.lodMin (r.lodMax + 1 - r.lodMin)

/-- Tile-index population of `SurfaceSpheroid::prepare_impl`: for each lod
of the resource's lod range and each metatile block of that lod, when
the block's common ancestor is productive (and the lod is in range, as the
code re-checks), set the block view to the computed flags.  No DEM is
warped: the body issues no warper request. -/
def spheroidPrepareSetCalls (r : SLodRange) (blocks : Nat → List MBlock) :
    List TiSetCall :=
  (lodsOf r).flatMap fun lod =>
    (blocks lod).filterMap fun block =>
      if block.productive && (decide (r.lodMin ≤ lod) && decide (lod ≤ r.lodMax))
      then some ⟨lod, block.view, spheroidFlags r.lodMin lod⟩
      else none

/-- Warper requests issued by `SurfaceSpheroid::prepare_impl`: the body
contains no `arsenal` call (its `Arsenal&` parameter is unnamed), so the
list is empty by construction. -/
def spheroidPrepareWarpRequests : List String := []

/-- Blocks used by the C8 counterexample: a single productive block at
lod 12. -/
def cexBlocks : Nat → List MBlock :=
  fun lod => if lod = 12 then [⟨true, [(0, 0)]⟩] else []

/-- C8 (counterexample): with `lodRange = [12, 13]` the tile set at lod 12
carries the navtile flag even though `12 > 10`: the navtile condition is not
`lod ≤ 10` alone. -/
theorem spheroid_navtile_counterexample :
    spheroidPrepareSetCalls ⟨12, 13⟩ cexBlocks
      = [⟨12, [(0, 0)], TileFlag.mesh ||| TileFlag.watertight
          ||| TileFlag.navtile⟩]
    ∧ (10 : Nat) < 12
    ∧ (TileFlag.mesh ||| TileFlag.watertight ||| TileFlag.navtile)
        &&& TileFlag.navtile ≠ 0 := by
  decide

/-- C8 (amended): surface-spheroid preparation warps no DEM; it sets
`mesh | watertight` exactly on the views of productive metatile blocks of
lods in the resource's lod range, and the navtile flag is included if and
only if the lod is at most 10 or is the minimum of the lod range. -/
theorem spheroid_prepare_spec (r : SLodRange) (blocks : Nat → List MBlock) :
    spheroidPrepareWarpRequests = []
    ∧ (∀ c ∈ spheroidPrepareSetCalls r blocks,
        c.flags &&& TileFlag.mesh ≠ 0
        ∧ c.flags &&& TileFlag.watertight ≠ 0
        ∧ (c.flags &&& TileFlag.navtile ≠ 0 ↔
            (c.lod = r.lodMin ∨ c.lod ≤ 10)))
    ∧ (∀ c, c ∈ spheroidPrepareSetCalls r blocks ↔
        ∃ lod, r.lodMin ≤ lod ∧ lod ≤ r.lodMax
          ∧ ∃ b ∈ blocks lod, b.productive = true
            ∧ c = ⟨lod, b.view, spheroidFlags r.lodMin lod⟩) := by
  have hflag : ∀ lodMin lod : Nat,
      spheroidFlags lodMin lod &&& TileFlag.mesh ≠ 0
      ∧ spheroidFlags lodMin lod &&& TileFlag.watertight ≠ 0
      ∧ (spheroidFlags lodMin lod &&& TileFlag.navtile ≠ 0 ↔
          (lod = lodMin ∨ lod ≤ 10)) := by
    intro lodMin lod
    unfold spheroidFlags
    by_cases h : (lod == lodMin || lod ≤ 10) = true
    · rw [if_pos h]
      refine ⟨by decide, by decide, ?_⟩
      simp only [Bool.or_eq_true, beq_iff_eq, decide_eq_true_eq] at h
      simpa using Iff.intro (fun _ => h) (fun _ => by decide)
    · rw [if_neg h]
      refine ⟨by decide, by decide, ?_⟩
      simp only [Bool.or_eq_true, beq_iff_eq, decide_eq_true_eq, not_or] at h
      constructor
      · intro hx; exact absurd (by decide) hx
      · intro hx; exact absurd hx (not_or.2 h)
  have hmem : ∀ lod, lod ∈ lodsOf r ↔ (r.lodMin ≤ lod ∧ lod ≤ r.lodMax) := by
    intro lod
    simp only [lodsOf, List.mem_range'_1]
    omega
  refine ⟨rfl, ?_, ?_⟩
  · intro c hc
    simp only [spheroidPrepareSetCalls, List.mem_flatMap
      , List.mem_filterMap] at hc
    obtain ⟨lod, hlod, b, hb, hite⟩ := hc
    by_cases hcond : (b.productive
        && (decide (r.lodMin ≤ lod) && decide (lod ≤ r.lodMax))) = true
    · rw [if_pos hcond] at hite
      cases hite
      exact hflag r.lodMin lod
    · rw [if_neg hcond] at hite
      cases hite
  · intro c
    simp only [spheroidPrepareSetCalls, List.mem_flatMap, List.mem_filterMap]
    constructor
    · rintro ⟨lod, hlod, b, hb, hite⟩
      by_cases hcond : (b.productive
          && (decide (r.lodMin ≤ lod) && decide (lod ≤ r.lodMax))) = true
      · rw [if_pos hcond] at hite
        cases hite
        simp only [Bool.and_eq_true, decide_eq_true_eq] at hcond
        exact ⟨lod, hcond.2.1, hcond.2.2, b, hb, hcond.1, rfl⟩
      · rw [if_neg hcond] at hite
        cases hite
    · rintro ⟨lod, h1, h2, b, hb, hprod, rfl⟩
      refine ⟨lod, (hmem lod).2 ⟨h1, h2⟩, b, hb, ?_⟩
      rw [if_pos]
      simp [hprod, h1, h2]

/-- C8 witness: the amended preparation property evaluated on the concrete
lod range `[12, 13]` and block set. -/
theorem spheroid_prepare_spec_witness :
    (⟨12, [(0, 0)], 7⟩ : TiSetCall)
      ∈ spheroidPrepareSetCalls ⟨12, 13⟩ cexBlocks := by
  have h := (spheroid_prepare_spec ⟨12, 13⟩ cexBlocks).2.2 ⟨12, [(0, 0)], 7⟩
  exact h.mpr ⟨12, by decide, by decide, ⟨true, [(0, 0)]⟩, by decide
    , rfl, by decide⟩

/- ------------------------------------------------------------------
Delivery-index publication (tms-gdaldem.cpp, surface-spheroid.cpp and the
other generators; tile-index serialisation from vts-libs).
------------------------------------------------------------------ -/

/-- A file-system action performed while publishing a delivery index. -/
inductive FsEvent where
  | write (path : String)
  | fsync (path : String)
  | rename (src dst : String)
deriving DecidableEq, Repr

/-- `utility::addExtension`: append an extension to a path, yielding a
sibling in the same directory. -/
def addExtension (path ext : String) : String := path ++ ext

/-- Modelled from the spec: `mmapped::TileIndex::write` — the tile index
store's writer (vts-libs; not under src/).  Spec §4.A: the writer
serialises the in-memory tree to the given path and fsyncs it. -/
def tileIndexWrite (path : String) : List FsEvent :=
  [FsEvent.write path, FsEvent.fsync path]

/-- Publication of a delivery index as performed identically by
`TmsGdaldem::prepare_impl`, `SurfaceSpheroid::prepare_impl` and the other
generators: write the index through `mmapped::TileIndex::write` to
`addExtension(deliveryIndexPath, ".tmp")`, then `fs::rename` it over
`delivery.index`. -/
def publishDeliveryIndex (root : String) : List FsEvent :=
  tileIndexWrite (addExtension (root ++ "/delivery.index") ".tmp")
    ++ [FsEvent.rename (addExtension (root ++ "/delivery.index") ".tmp")
          (root ++ "/delivery.index")]

/-- C9: every delivery-index publication writes and fsyncs only the sibling
`.tmp` path and finishes with the rename of that path over
`delivery.index`; the delivery path itself is never the target of a write,
and the rename is the last event of the publication (a new revision repeats
the same fresh-write-and-swap sequence). -/
theorem delivery_index_publication_atomic (root : String) :
    publishDeliveryIndex root
      = [FsEvent.write (root ++ "/delivery.index" ++ ".tmp")
        , FsEvent.fsync (root ++ "/delivery.index" ++ ".tmp")
        , FsEvent.rename (root ++ "/delivery.index" ++ ".tmp")
            (root ++ "/delivery.index")]
    ∧ (∀ p, FsEvent.write p ∈ publishDeliveryIndex root →
        p = root ++ "/delivery.index" ++ ".tmp")
    ∧ FsEvent.write (root ++ "/delivery.index") ∉ publishDeliveryIndex root
    ∧ (publishDeliveryIndex root).getLast?
        = some (FsEvent.rename (root ++ "/delivery.index" ++ ".tmp")
            (root ++ "/delivery.index")) := by
  have hne : root ++ "/delivery.index" ≠ root ++ "/delivery.index" ++ ".tmp" := by
    intro h
    have hlen := congrArg String.length h
    simp [String.length_append] at hlen
    exact absurd hlen (by decide)
  refine ⟨rfl, ?_, ?_, rfl⟩
  · intro p hp
    simp only [publishDeliveryIndex, tileIndexWrite, addExtension
      , List.cons_append, List.nil_append, List.mem_cons
      , List.not_mem_nil, or_false] at hp
    rcases hp with h | h | h
    · exact FsEvent.write.inj h
    · cases h
    · cases h
  · intro hmem
    simp only [publishDeliveryIndex, tileIndexWrite, addExtension
      , List.cons_append, List.nil_append, List.mem_cons
      , List.not_mem_nil, or_false] at hmem
    rcases hmem with h | h | h
    · exact hne (FsEvent.write.inj h)
    · cases h
    · cases h

/-- C9 witness: the publication trace evaluated for a concrete resource
root. -/
theorem delivery_index_publication_atomic_witness :
    FsEvent.write "res/delivery.index" ∉ publishDeliveryIndex "res" := by
  have h := (delivery_index_publication_atomic "res").2.2.1
  simpa using h
